import Mathlib

/-!
Verification of the `unique_port` library (src/lib.rs).

The library keeps a process-wide cursor `PORT_IDX : Mutex<u16>` initialised
to 1000, a finder `get_free_port` scanning a half-open range of candidate
ports for the first one a TCP bind probe accepts, an allocation entry point
`get_unique_free_port`, a setter `set_port_index`, and a macro
`generate_start_port!` computing a deterministic starting offset from a
64-bit hash of the caller's function path.

Embedding choices:
* The operating system's bind probe (`TcpListener::bind` on 127.0.0.1) is
  abstracted as an environment `bindable : Nat → Bool`, fixed during a scan.
* The mutex-guarded `u16` cursor becomes a `PortState` of a natural-number
  cursor (kept in u16 range by reducing modulo 2^16 at each write, the u16
  arithmetic of the source) and a `poisoned` flag modelling a poisoned lock:
  `Mutex::lock` fails exactly when the lock is poisoned.
* Errors are the literal `String` values the source produces.
* The 64-bit `DefaultHasher` is std-library code, not code of this
  repository; it enters as an abstract hash value (a `Nat` reduced modulo
  2^64) or an abstract hash function on identifying strings.
-/

/-- The value `u16::MAX` of the source. -/
def u16_MAX : Nat := 65535

/-- The error string of `set_port_index` / `get_unique_free_port` when
`PORT_IDX.lock()` fails (a poisoned mutex): the `LockPoisoned` error. -/
def lockPoisonedMsg : String := "Failed to aquire the lock"

/-- The error string of `get_free_port` when the range holds no bindable
port: the `NoFreePort` error. -/
def noFreePortMsg : String := "Failed to get empty port"

/-- The process-wide state behind `static PORT_IDX : Lazy<Mutex<u16>>`:
the cursor value and whether the mutex is poisoned. -/
structure PortState where
  port_idx : Nat
  poisoned : Bool
deriving DecidableEq

/-- The initializer `Lazy::new(|| Mutex::new(1000))`: cursor 1000, healthy lock. -/
def initialState : PortState := ⟨1000, false⟩

/-- The ascending scan of `ports.into_iter().find(|port| bind(port).is_ok())`
over `[lo, lo + fuel)`: the first candidate the probe accepts, else `none`.
`fuel` is the number of remaining candidates of the range. -/
def findFrom (bindable : Nat → Bool) (lo : Nat) : Nat → Option Nat
  | 0 => none
  | fuel + 1 => if bindable lo then some lo else findFrom bindable (lo + 1) fuel

/-- The finder `fn get_free_port(ports: Range<u16>) -> Result<u16, String>`: scan
`[lo, hi)` ascending for the first bindable port; `noFreePortMsg` if none. -/
def get_free_port (bindable : Nat → Bool) (lo hi : Nat) : Except String Nat :=
  match findFrom bindable lo (hi - lo) with
  | some p => .ok p
  | none => .error noFreePortMsg

/-- The setter `pub fn set_port_index(pindex: u16) -> Result<(), String>`: on a healthy
lock, overwrite the cursor with `pindex` (a u16, hence the mod 2^16) and
return `Ok(())`; on a poisoned lock, return the lock error and leave the
state untouched. -/
def set_port_index (pindex : Nat) (s : PortState) :
    Except String Unit × PortState :=
  if s.poisoned then (.error lockPoisonedMsg, s)
  else (.ok (), { s with port_idx := pindex % 2 ^ 16 })

/-- The entry point `pub fn get_unique_free_port() -> Result<u16, String>`: on a healthy
lock, run `get_free_port(*port_idx..u16::MAX)`; on `Ok(port)` store
`port + 1` (u16 arithmetic) and return the port; on error return it with
the cursor untouched. On a poisoned lock, return the lock error. -/
def get_unique_free_port (bindable : Nat → Bool) (s : PortState) :
    Except String Nat × PortState :=
  if s.poisoned then (.error lockPoisonedMsg, s)
  else
    match get_free_port bindable s.port_idx u16_MAX with
    | .ok port => (.ok port, { s with port_idx := (port + 1) % 2 ^ 16 })
    | .error e => (.error e, s)

/-- The macro `generate_start_port!` applied to a 64-bit hash value:
`1000 + (hash % ((u16::MAX - 1000) as u64)) as u16`, with the `as u16`
narrowing and the u16 addition written as reductions modulo 2^16. -/
def generate_start_port (hash : Nat) : Nat :=
  (1000 + hash % 2 ^ 64 % (u16_MAX - 1000) % 2 ^ 16) % 2 ^ 16

/-- The whole macro body: hash the identifying string (the enclosing
function's `type_name` minus the trailing `::f`) with the build's 64-bit
hasher, then map into the port range. The hasher is std code, abstracted
as `hashFn`. -/
def start_port_of (hashFn : String → Nat) (name : String) : Nat :=
  generate_start_port (hashFn name)

/-- An environment where every bind probe succeeds. -/
def envAllFree : Nat → Bool := fun _ => true

/-- An environment where no bind probe succeeds. -/
def envNoneFree : Nat → Bool := fun _ => false

/-- The scan-correctness environment: ports 5000–5002 are pre-bound (the
probe fails there), every other port is free. -/
def envScan : Nat → Bool := fun p => decide (p < 5000 ∨ 5002 < p)

/-- A sequence of successful `get_unique_free_port()` calls within one
process, with no intervening `set_port_index` calls: from state `s`, the
calls return the listed ports in order and leave state `s₂`. The bind
environment is fixed for the whole sequence. -/
inductive Calls (b : Nat → Bool) : PortState → List Nat → PortState → Prop
  | nil (s : PortState) : Calls b s [] s
  | cons {s s₁ s₂ : PortState} {p : Nat} {ps : List Nat} :
      get_unique_free_port b s = (.ok p, s₁) → Calls b s₁ ps s₂ →
      Calls b s (p :: ps) s₂

/-- The composition the doc example performs: `set_port_index(P)` followed
immediately by `get_unique_free_port()` (threading the state; the setter's
own result is the state, its `Ok(())` carries no data). -/
def reset_then_get (b : Nat → Bool) (P : Nat) (s : PortState) :
    Except String Nat × PortState :=
  get_unique_free_port b (set_port_index P s).2

/-- Unfolding of one scan step. -/
theorem findFrom_succ (b : Nat → Bool) (lo fuel : Nat) :
    findFrom b lo (fuel + 1) =
      if b lo = true then some lo else findFrom b (lo + 1) fuel := rfl

/-- First-fit characterization of the scan: `findFrom` returns `some p`
exactly when `p` is the least bindable port of `[lo, lo + fuel)`. -/
theorem findFrom_some_iff (b : Nat → Bool) :
    ∀ (fuel lo p : Nat), findFrom b lo fuel = some p ↔
      lo ≤ p ∧ p < lo + fuel ∧ b p = true ∧
        ∀ q, lo ≤ q → q < p → b q = false := by
  intro fuel
  induction fuel with
  | zero =>
    intro lo p
    constructor
    · intro h; exact Option.noConfusion h
    · rintro ⟨h1, h2, -⟩; exact absurd h2 (by omega)
  | succ n ih =>
    intro lo p
    rw [findFrom_succ]
    cases hlo : b lo with
    | true =>
      rw [if_pos rfl]
      constructor
      · intro h
        rw [Option.some.injEq] at h
        rw [← h]
        exact ⟨Nat.le_refl _, by omega, hlo, fun q h1 h2 => absurd h2 (by omega)⟩
      · rintro ⟨h1, -, h3, h4⟩
        have hpl : p = lo := by
          rcases Nat.lt_or_ge lo p with hlt | hge
          · have := h4 lo (Nat.le_refl _) hlt
            rw [this] at hlo; exact Bool.noConfusion hlo
          · omega
        rw [hpl]
    | false =>
      rw [if_neg Bool.false_ne_true]
      rw [ih (lo + 1) p]
      constructor
      · rintro ⟨h1, h2, h3, h4⟩
        refine ⟨by omega, by omega, h3, fun q hq1 hq2 => ?_⟩
        rcases Nat.eq_or_lt_of_le hq1 with hq | hq
        · rw [← hq]; exact hlo
        · exact h4 q hq hq2
      · rintro ⟨h1, h2, h3, h4⟩
        have hpl : lo + 1 ≤ p := by
          rcases Nat.eq_or_lt_of_le h1 with hq | hq
          · rw [← hq] at h3; rw [h3] at hlo; exact Bool.noConfusion hlo
          · omega
        exact ⟨hpl, by omega, h3, fun q hq1 hq2 => h4 q (by omega) hq2⟩

/-- The scan returns `none` exactly when no port of `[lo, lo + fuel)` is
bindable. -/
theorem findFrom_none_iff (b : Nat → Bool) :
    ∀ (fuel lo : Nat), findFrom b lo fuel = none ↔
      ∀ q, lo ≤ q → q < lo + fuel → b q = false := by
  intro fuel
  induction fuel with
  | zero =>
    intro lo
    constructor
    · intro _ q h1 h2; exact absurd h2 (by omega)
    · intro _; rfl
  | succ n ih =>
    intro lo
    rw [findFrom_succ]
    cases hlo : b lo with
    | true =>
      rw [if_pos rfl]
      constructor
      · intro h; exact Option.noConfusion h
      · intro h
        have := h lo (Nat.le_refl _) (by omega)
        rw [this] at hlo; exact Bool.noConfusion hlo
    | false =>
      rw [if_neg Bool.false_ne_true]
      rw [ih (lo + 1)]
      constructor
      · intro h q hq1 hq2
        rcases Nat.eq_or_lt_of_le hq1 with hq | hq
        · rw [← hq]; exact hlo
        · exact h q hq (by omega)
      · intro h q hq1 hq2
        exact h q (by omega) (by omega)

/-- The finder succeeds with `p` exactly when `p` is the least bindable
port of the half-open range `[lo, hi)`. -/
theorem get_free_port_ok_iff (b : Nat → Bool) (lo hi p : Nat) :
    get_free_port b lo hi = .ok p ↔
      lo ≤ p ∧ p < hi ∧ b p = true ∧
        ∀ q, lo ≤ q → q < p → b q = false := by
  unfold get_free_port
  cases hf : findFrom b lo (hi - lo) with
  | none =>
    rw [findFrom_none_iff] at hf
    constructor
    · intro h; exact Except.noConfusion h
    · rintro ⟨h1, h2, h3, -⟩
      have := hf p h1 (by omega)
      rw [this] at h3; exact Bool.noConfusion h3
  | some q =>
    rw [findFrom_some_iff] at hf
    rcases hf with ⟨h1, h2, h3, h4⟩
    rw [Except.ok.injEq]
    constructor
    · rintro rfl
      exact ⟨h1, by omega, h3, h4⟩
    · rintro ⟨g1, g2, g3, g4⟩
      rcases Nat.lt_trichotomy q p with h | h | h
      · have := g4 q h1 h
        rw [this] at h3; exact Bool.noConfusion h3
      · exact h
      · have := h4 p g1 h
        rw [this] at g3; exact Bool.noConfusion g3

/-- The finder fails (necessarily with the `NoFreePort` message) exactly
when no port of `[lo, hi)` is bindable. -/
theorem get_free_port_err_iff (b : Nat → Bool) (lo hi : Nat) :
    get_free_port b lo hi = .error noFreePortMsg ↔
      ∀ q, lo ≤ q → q < hi → b q = false := by
  unfold get_free_port
  cases hf : findFrom b lo (hi - lo) with
  | none =>
    rw [findFrom_none_iff] at hf
    constructor
    · intro _ q hq1 hq2
      exact hf q hq1 (by omega)
    · intro _; rfl
  | some q =>
    rw [findFrom_some_iff] at hf
    rcases hf with ⟨h1, h2, h3, -⟩
    constructor
    · intro h; exact Except.noConfusion h
    · intro h
      have := h q h1 (by omega)
      rw [this] at h3; exact Bool.noConfusion h3

/-- Every failure of the finder carries the `NoFreePort` message. -/
theorem get_free_port_err_msg (b : Nat → Bool) (lo hi : Nat) (e : String)
    (h : get_free_port b lo hi = .error e) : e = noFreePortMsg := by
  unfold get_free_port at h
  cases hf : findFrom b lo (hi - lo) with
  | none => rw [hf] at h; cases h; rfl
  | some q => rw [hf] at h; exact Except.noConfusion h

/-- The entry point on a poisoned lock: the lock error, state untouched. -/
theorem get_unique_free_port_poisoned (b : Nat → Bool) (s : PortState)
    (h : s.poisoned = true) :
    get_unique_free_port b s = (.error lockPoisonedMsg, s) := by
  unfold get_unique_free_port
  rw [if_pos h]

/-- Success analysis of the entry point: `(.ok p, s₂)` comes out exactly
when the lock is healthy, the finder picks `p` from `[port_idx, u16_MAX)`,
and `s₂` is `s` with the cursor advanced to `p + 1` (the u16 increment does
not wrap because `p + 1 ≤ u16_MAX`). -/
theorem get_unique_free_port_ok_iff (b : Nat → Bool) (s : PortState)
    (p : Nat) (s₂ : PortState) :
    get_unique_free_port b s = (.ok p, s₂) ↔
      s.poisoned = false ∧
        get_free_port b s.port_idx u16_MAX = .ok p ∧
        s₂ = { s with port_idx := p + 1 } := by
  cases hpois : s.poisoned with
  | true =>
    simp [get_unique_free_port, hpois]
  | false =>
    cases hf : get_free_port b s.port_idx u16_MAX with
    | ok q =>
      have hq : q < u16_MAX :=
        ((get_free_port_ok_iff b s.port_idx u16_MAX q).mp hf).2.1
      have hmod : (q + 1) % 65536 = q + 1 := by
        apply Nat.mod_eq_of_lt
        unfold u16_MAX at hq
        omega
      simp [get_unique_free_port, hpois, hf, hmod]
      intro hqp
      subst hqp
      exact eq_comm
    | error e =>
      simp [get_unique_free_port, hpois, hf]

/-- Failure analysis of the entry point: on any error the state is
returned untouched. -/
theorem get_unique_free_port_err (b : Nat → Bool) (s : PortState)
    (e : String) (s₂ : PortState)
    (h : get_unique_free_port b s = (.error e, s₂)) : s₂ = s := by
  cases hpois : s.poisoned with
  | true =>
    rw [get_unique_free_port_poisoned b s hpois, Prod.mk.injEq] at h
    exact h.2.symm
  | false =>
    unfold get_unique_free_port at h
    rw [hpois, if_neg Bool.false_ne_true] at h
    cases hf : get_free_port b s.port_idx u16_MAX with
    | ok q =>
      rw [hf] at h
      simp at h
    | error e₂ =>
      rw [hf] at h
      simp at h
      exact h.2.symm

/-- With a healthy lock and no bindable port in `[port_idx, u16_MAX)`, the
entry point returns the `NoFreePort` error and the very same state. -/
theorem get_unique_free_port_exhausted (b : Nat → Bool) (s : PortState)
    (hpois : s.poisoned = false)
    (hnone : ∀ q, s.port_idx ≤ q → q < u16_MAX → b q = false) :
    get_unique_free_port b s = (.error noFreePortMsg, s) := by
  unfold get_unique_free_port
  rw [hpois, if_neg Bool.false_ne_true,
    (get_free_port_err_iff b s.port_idx u16_MAX).mpr hnone]

/-- Along a successful call sequence every returned port is at least the
starting cursor, and the returned ports are pairwise strictly ordered. -/
theorem Calls.bounds_pairwise {b : Nat → Bool} {s s₂ : PortState}
    {ps : List Nat} (h : Calls b s ps s₂) :
    (∀ x ∈ ps, s.port_idx ≤ x) ∧ List.Pairwise (· < ·) ps := by
  induction h with
  | nil s => exact ⟨fun x hx => absurd hx (List.not_mem_nil x), List.Pairwise.nil⟩
  | cons hcall _ ih =>
    rename_i s s₁ s₂ p ps _
    rcases (get_unique_free_port_ok_iff b s p s₁).mp hcall with ⟨-, hfind, hs₁⟩
    rcases (get_free_port_ok_iff b s.port_idx u16_MAX p).mp hfind with
      ⟨hple, -, -, -⟩
    have hnext : ∀ x ∈ ps, p + 1 ≤ x := by
      intro x hx
      have := ih.1 x hx
      rw [hs₁] at this
      exact this
    constructor
    · intro x hx
      rcases List.mem_cons.mp hx with hx | hx
      · rw [hx]; exact hple
      · have := hnext x hx
        omega
    · exact List.Pairwise.cons (fun x hx => hnext x hx) ih.2

/-- C1: for any sequence of N successful `get_unique_free_port()` calls in
one process with no intervening `set_port_index`, the N returned ports are
pairwise distinct and strictly increasing (each success sets the cursor to
the returned port plus one, and the finder only returns ports at or above
the cursor). -/
theorem C1_monotonic_uniqueness (b : Nat → Bool) (s s₂ : PortState)
    (ps : List Nat) (h : Calls b s ps s₂) :
    List.Pairwise (· < ·) ps ∧ ps.Nodup := by
  have hpw := h.bounds_pairwise.2
  exact ⟨hpw, hpw.imp Nat.ne_of_lt⟩

/-- C1 witness: two successful calls from the initial state in an
environment where every probe succeeds return 1000 then 1001, a pairwise
distinct, strictly increasing sequence. -/
theorem C1_witness :
    List.Pairwise (· < ·) [1000, 1001] ∧ List.Nodup [1000, 1001] :=
  C1_monotonic_uniqueness envAllFree initialState ⟨1002, false⟩ [1000, 1001]
    (Calls.cons rfl (Calls.cons rfl (Calls.nil ⟨1002, false⟩)))

/-- C2: the finder scans its half-open range in ascending order and
returns the first candidate the bind probe accepts — a success is exactly
the least bindable port of the range, a `NoFreePort` failure is exactly the
absence of any bindable port — and, the environment being fixed, with
ports 5000–5002 bound and 5003 free, `get_free_port 5000..65535` returns
exactly 5003. -/
theorem C2_scan_first_fit :
    (∀ (b : Nat → Bool) (lo hi p : Nat),
      get_free_port b lo hi = .ok p ↔
        lo ≤ p ∧ p < hi ∧ b p = true ∧
          ∀ q, lo ≤ q → q < p → b q = false)
    ∧ (∀ (b : Nat → Bool) (lo hi : Nat),
      get_free_port b lo hi = .error noFreePortMsg ↔
        ∀ q, lo ≤ q → q < hi → b q = false)
    ∧ get_free_port envScan 5000 65535 = .ok 5003 :=
  ⟨get_free_port_ok_iff, get_free_port_err_iff, rfl⟩

/-- C3: when `get_unique_free_port()` fails because no port of
`[cursor, 65535)` is bindable, the cursor state is left unmodified and the
`NoFreePort` error is returned. -/
theorem C3_error_atomicity (b : Nat → Bool) (s : PortState)
    (hpois : s.poisoned = false)
    (hnone : ∀ q, s.port_idx ≤ q → q < u16_MAX → b q = false) :
    get_unique_free_port b s = (.error noFreePortMsg, s) :=
  get_unique_free_port_exhausted b s hpois hnone

/-- C3 witness: from cursor 65530 with no bindable port, the call fails
with `NoFreePort` and the state, cursor included, is exactly as before. -/
theorem C3_witness :
    get_unique_free_port envNoneFree ⟨65530, false⟩ =
      (.error noFreePortMsg, ⟨65530, false⟩) :=
  C3_error_atomicity envNoneFree ⟨65530, false⟩ rfl (fun _ _ _ => rfl)

/-- C4 counterexample: a failed call does not advance the cursor. From
cursor 65535 with every probe succeeding, `get_unique_free_port()` fails
and returns the state with cursor still 65535 — so it is false that every
call, successful or failed, advances the cursor. -/
theorem C4_counterexample :
    get_unique_free_port envAllFree ⟨65535, false⟩ =
      (.error noFreePortMsg, ⟨65535, false⟩) ∧
    (get_unique_free_port envAllFree ⟨65535, false⟩).2.port_idx =
      (⟨65535, false⟩ : PortState).port_idx := ⟨rfl, rfl⟩

/-- C4 amended: `get_unique_free_port()` locks the cursor, invokes the
finder starting at the current cursor value, and returns the result; on
success it advances the cursor past the returned port (to `port + 1`,
leaving the poisoned flag unchanged), while on failure the state is
returned unchanged — the cursor advances only on success. -/
theorem C4_cursor_advance (b : Nat → Bool) (s : PortState) :
    (∀ p s₂, get_unique_free_port b s = (.ok p, s₂) →
      get_free_port b s.port_idx u16_MAX = .ok p ∧
        s₂.port_idx = p + 1 ∧ s₂.poisoned = s.poisoned)
    ∧ (∀ e s₂, get_unique_free_port b s = (.error e, s₂) → s₂ = s) := by
  constructor
  · intro p s₂ h
    rcases (get_unique_free_port_ok_iff b s p s₂).mp h with ⟨-, hfind, hs₂⟩
    rw [hs₂]
    exact ⟨hfind, rfl, rfl⟩
  · intro e s₂ h
    exact get_unique_free_port_err b s e s₂ h

/-- The setter on a healthy lock: `Ok(())`, cursor overwritten with the
(u16) value, lock stays healthy. -/
theorem set_port_index_healthy (P : Nat) (s : PortState)
    (h : s.poisoned = false) :
    set_port_index P s = (.ok (), ⟨P % 2 ^ 16, false⟩) := by
  cases s with
  | mk idx pois =>
    cases pois with
    | false => rfl
    | true => exact Bool.noConfusion h

/-- The setter on a poisoned lock: the lock error, state untouched. -/
theorem set_port_index_poisoned (P : Nat) (s : PortState)
    (h : s.poisoned = true) :
    set_port_index P s = (.error lockPoisonedMsg, s) := by
  unfold set_port_index
  rw [h, if_pos rfl]

/-- The entry point never flips the poisoned flag. -/
theorem get_unique_free_port_preserves_poisoned (b : Nat → Bool)
    (s : PortState) :
    (get_unique_free_port b s).2.poisoned = s.poisoned := by
  cases hpois : s.poisoned with
  | true =>
    rw [get_unique_free_port_poisoned b s hpois]
    exact hpois
  | false =>
    cases hf : get_free_port b s.port_idx u16_MAX with
    | ok q => simp [get_unique_free_port, hpois, hf]
    | error e => simp [get_unique_free_port, hpois, hf]

/-- Resetting from a poisoned state fails at the setter already, and the
following call fails at its own lock acquisition with the same state. -/
theorem reset_then_get_poisoned (b : Nat → Bool) (P : Nat) (s : PortState)
    (h : s.poisoned = true) :
    reset_then_get b P s = (.error lockPoisonedMsg, s) := by
  unfold reset_then_get
  rw [set_port_index_poisoned P s h]
  exact get_unique_free_port_poisoned b s h

/-- C5: `set_port_index(65535)` followed by `get_unique_free_port()` fails
with `NoFreePort`: the scan range `[65535, 65535)` is empty, so no port is
scanned and the error comes back instead of a port. -/
theorem C5_range_exhaustion (b : Nat → Bool) (s : PortState)
    (hpois : s.poisoned = false) :
    (set_port_index 65535 s).1 = .ok () ∧
    get_unique_free_port b (set_port_index 65535 s).2 =
      (.error noFreePortMsg, (set_port_index 65535 s).2) := by
  rw [set_port_index_healthy 65535 s hpois]
  exact ⟨rfl, rfl⟩

/-- C5 witness: from the initial state, even with every probe succeeding,
setting the cursor to 65535 makes the next allocation fail. -/
theorem C5_witness :
    (set_port_index 65535 initialState).1 = .ok () ∧
    get_unique_free_port envAllFree (set_port_index 65535 initialState).2 =
      (.error noFreePortMsg, (set_port_index 65535 initialState).2) :=
  C5_range_exhaustion envAllFree initialState rfl

/-- C6: after `set_port_index(P)`, a successful `get_unique_free_port()`
returns a port at least `P`; and running the pair `set_port_index(P)` then
`get_unique_free_port()` twice in a row, with nothing else mutating state
in between and a fixed environment of bound ports, yields the same result
both times. -/
theorem C6_idempotent_reset (b : Nat → Bool) (P : Nat) (s : PortState)
    (hP : P < 2 ^ 16) :
    (∀ p s₂, reset_then_get b P s = (.ok p, s₂) → P ≤ p)
    ∧ (reset_then_get b P (reset_then_get b P s).2).1 =
        (reset_then_get b P s).1 := by
  constructor
  · intro p s₂ h
    unfold reset_then_get at h
    rcases (get_unique_free_port_ok_iff b _ p s₂).mp h with ⟨hpois₂, hfind, -⟩
    have hle := ((get_free_port_ok_iff b _ u16_MAX p).mp hfind).1
    cases hpois : s.poisoned with
    | true =>
      have h2 : (set_port_index P s).2 = s := by
        rw [set_port_index_poisoned P s hpois]
      rw [h2, hpois] at hpois₂
      exact Bool.noConfusion hpois₂
    | false =>
      have h2 : (set_port_index P s).2 = (⟨P % 2 ^ 16, false⟩ : PortState) := by
        rw [set_port_index_healthy P s hpois]
      rw [h2] at hle
      have hle' : P % 2 ^ 16 ≤ p := hle
      rw [Nat.mod_eq_of_lt hP] at hle'
      exact hle'
  · cases hpois : s.poisoned with
    | true =>
      have h1 := reset_then_get_poisoned b P s hpois
      rw [h1]
      exact congrArg Prod.fst (reset_then_get_poisoned b P s hpois)
    | false =>
      unfold reset_then_get
      rw [set_port_index_healthy P s hpois]
      show (get_unique_free_port b
          (set_port_index P
            (get_unique_free_port b ⟨P % 2 ^ 16, false⟩).2).2).1 =
        (get_unique_free_port b ⟨P % 2 ^ 16, false⟩).1
      have hp2 :
          (get_unique_free_port b (⟨P % 2 ^ 16, false⟩ : PortState)).2.poisoned
            = false :=
        get_unique_free_port_preserves_poisoned b ⟨P % 2 ^ 16, false⟩
      rw [set_port_index_healthy P _ hp2]

/-- C6 witness: with port 1042 free, `set_port_index(1042)` then
`get_unique_free_port()` returns a port at least 1042, and the pair run
twice yields the same result both times. -/
theorem C6_witness :
    (∀ p s₂, reset_then_get envAllFree 1042 initialState = (.ok p, s₂) →
      1042 ≤ p)
    ∧ (reset_then_get envAllFree 1042
        (reset_then_get envAllFree 1042 initialState).2).1 =
      (reset_then_get envAllFree 1042 initialState).1 :=
  C6_idempotent_reset envAllFree 1042 initialState (by norm_num)

/-- C7: for every 64-bit hash value, the offset
`1000 + (hash % (65535 - 1000))` lies in `[1000, 65535)`, and the `as u16`
narrowing of `hash % (65535 - 1000)` never truncates (the reduction modulo
2^16 changes nothing). -/
theorem C7_offset_in_range (hash : Nat) :
    1000 ≤ generate_start_port hash ∧ generate_start_port hash < u16_MAX ∧
      hash % 2 ^ 64 % (u16_MAX - 1000) % 2 ^ 16 =
        hash % 2 ^ 64 % (u16_MAX - 1000) := by
  unfold generate_start_port u16_MAX
  have h1 : hash % 2 ^ 64 % (65535 - 1000) < 65535 - 1000 :=
    Nat.mod_lt _ (by norm_num)
  have h2 : (2 : Nat) ^ 16 = 65536 := by norm_num
  rw [h2] at *
  omega

/-- C8: the offset generator is a pure function of the identifying string
(and of the build's hasher): equal strings give equal offsets, with no
runtime state involved. -/
theorem C8_offset_deterministic (hashFn : String → Nat) (n₁ n₂ : String)
    (h : n₁ = n₂) :
    start_port_of hashFn n₁ = start_port_of hashFn n₂ := by rw [h]

/-- C8 witness: two invocations at the same call site (the same
identifying string, the same build hasher) return the same value. -/
theorem C8_witness :
    start_port_of (fun _ => 12345) "unique_port::tests::my_test" =
      start_port_of (fun _ => 12345) "unique_port::tests::my_test" :=
  C8_offset_deterministic (fun _ => 12345)
    "unique_port::tests::my_test" "unique_port::tests::my_test" rfl

/-- C9: `set_port_index` returns `Ok` exactly when the lock is acquired
(the lock is not poisoned); on success it overwrites the cursor with the
given u16 value unconditionally, and on failure it signals the lock error
with the state, cursor included, unmodified. -/
theorem C9_set_port_index_contract (pindex : Nat) (s : PortState) :
    ((set_port_index pindex s).1 = .ok () ↔ s.poisoned = false)
    ∧ (s.poisoned = false →
        set_port_index pindex s = (.ok (), ⟨pindex % 2 ^ 16, false⟩))
    ∧ (s.poisoned = true →
        set_port_index pindex s = (.error lockPoisonedMsg, s)) := by
  refine ⟨?_, set_port_index_healthy pindex s, set_port_index_poisoned pindex s⟩
  cases hpois : s.poisoned with
  | true =>
    rw [set_port_index_poisoned pindex s hpois]
    simp
  | false =>
    rw [set_port_index_healthy pindex s hpois]
    simp

/-- C10: every port `p` a successful `get_unique_free_port()` returns
satisfies `p < 65535` (the range end `u16::MAX` is exclusive), so the
cursor update stores exactly `p + 1` and `p + 1 ≤ 65535`: the u16 cursor
increment never overflows. -/
theorem C10_no_overflow (b : Nat → Bool) (s : PortState) (p : Nat)
    (s₂ : PortState) (h : get_unique_free_port b s = (.ok p, s₂)) :
    p < u16_MAX ∧ s₂.port_idx = p + 1 ∧ p + 1 ≤ u16_MAX := by
  rcases (get_unique_free_port_ok_iff b s p s₂).mp h with ⟨-, hfind, hs₂⟩
  have hlt := ((get_free_port_ok_iff b s.port_idx u16_MAX p).mp hfind).2.1
  rw [hs₂]
  exact ⟨hlt, rfl, hlt⟩

/-- C10 witness: the first allocation of the all-free environment returns
1000, below 65535, and stores cursor 1001 = 1000 + 1 ≤ 65535. -/
theorem C10_witness :
    1000 < u16_MAX ∧
      (⟨1001, false⟩ : PortState).port_idx = 1000 + 1 ∧ 1000 + 1 ≤ u16_MAX :=
  C10_no_overflow envAllFree initialState 1000 ⟨1001, false⟩ rfl
